import Mathlib

/-!
Verification development for the goin incremental content-indexing pipeline.

The definitions below are a shallow embedding of the Go sources:
  * `main.go` — `HashFile`, `CheckHash`, `WriteFileHash`, `ProcessFile`,
    `IndexFile`, `IndexDirectory` (the live orchestrator entry points);
  * the processor variant (`ShouldProcess`, `Process`, `Register`,
    `registerDefaults`, `checkHash`, `finishFile`) — the registry-based
    refactoring of the same pipeline;
  * the bleve index wrapper (`bleveIndex.Put`, keyed by `data.FullPath`).

File contents, stat sizes, the sha256 digest function, mime-table lookup,
external OCR results and index/commit success are modelled as oracle fields
of an `Env` record: each corresponds to an external effect the Go code
consumes (filesystem reads, `mime.TypeByExtension`, tesseract, bleve).
Byte strings are `List Nat`.
-/

/-- Byte strings (Go `[]byte`). -/
abbrev Bytes := List Nat

/-- Association-list model of a Go map / of the on-disk hash directory:
lookup by string key, as Go `m[k]` or opening the file named `k`. -/
def lookupAL {β : Type} : List (String × β) → String → Option β
  | [], _ => none
  | (k', v) :: rest, k => if k' = k then some v else lookupAL rest k

/-- Insert-or-replace for an association list: Go map assignment `m[k] = v`,
or `os.Create` truncating and rewriting the file named `k`. -/
def upsert {β : Type} : List (String × β) → String → β → List (String × β)
  | [], k, v => [(k, v)]
  | (k', v') :: rest, k, v =>
      if k' = k then (k, v) :: rest else (k', v') :: upsert rest k v

/-- The fingerprint store: one persisted digest per key (the hash directory:
one file per key, containing the raw digest bytes). -/
abbrev Store := List (String × Bytes)

/-- Scan a reversed path for the extension: Go `filepath.Ext` walks backwards
from the end, stops at a path separator, and returns the suffix from the last
dot. `acc` holds the characters already passed, in forward order. -/
def filepathExtAux : List Char → List Char → Option (List Char)
  | [], _ => none
  | c :: rest, acc =>
      if c = '/' then none
      else if c = '.' then some (c :: acc)
      else filepathExtAux rest (c :: acc)

/-- Go `filepath.Ext`: the suffix beginning at the final dot in the final
path element; empty if there is no dot. -/
def filepathExt (p : String) : String :=
  match filepathExtAux p.data.reverse [] with
  | none => ""
  | some l => ⟨l⟩

/-- Drop trailing separators, as Go `filepath.Base` does first. -/
def dropTrailingSlashes (cs : List Char) : List Char :=
  (cs.reverse.dropWhile (fun c => c = '/')).reverse

/-- Go `filepath.Base` on a unix path: last element of the path after
removing trailing slashes; `"."` for the empty path, `"/"` if the path is
all slashes. -/
def filepathBase (p : String) : String :=
  if p = "" then "."
  else
    let cs := dropTrailingSlashes p.data
    if cs = [] then "/"
    else ⟨(cs.reverse.takeWhile (fun c => ¬ (c = '/'))).reverse⟩

/-- Split a character list on `'/'` (helper for `pathClean`). -/
def splitSlash : List Char → List (List Char)
  | [] => [[]]
  | c :: rest =>
      match splitSlash rest with
      | [] => [[]]
      | seg :: segs => if c = '/' then [] :: seg :: segs else (c :: seg) :: segs

/-- Join path segments with `'/'` (helper for `pathClean`). -/
def joinSlash : List (List Char) → List Char
  | [] => []
  | [s] => s
  | s :: rest => s ++ '/' :: joinSlash rest

/-- Model of Go `path.Clean`: drop empty and `.` elements, resolve `..`
against preceding elements (keeping leading `..` on relative paths,
dropping it at the root), re-join, restore the leading slash, and return
`"."` for an emptied relative path. -/
def pathClean (p : String) : String :=
  if p = "" then "."
  else
    let rooted := p.data.head? = some '/'
    let comps := (splitSlash p.data).filter
      (fun c => decide (c ≠ []) && decide (c ≠ ['.']))
    let out := comps.foldl
      (fun acc c =>
        if c = ['.', '.'] then
          match acc with
          | [] => if rooted then [] else [c]
          | a :: rest => if a = ['.', '.'] then c :: a :: rest else rest
        else c :: acc) ([] : List (List Char))
    let joined := joinSlash out.reverse
    if rooted then ⟨'/' :: joined⟩
    else if joined = [] then "." else ⟨joined⟩

/-- The category prefix of a media type: Go `strings.SplitN(mt, "/", 2)[0]`,
the substring before the first `/` (the whole string if it has no `/`). -/
def categoryOf (mt : String) : String :=
  ⟨mt.data.takeWhile (fun c => ¬ (c = '/'))⟩

/-- Go `strings.ToLower`, restricted to the characters that occur in
extensions here. -/
def toLowerStr (s : String) : String := ⟨s.data.map Char.toLower⟩

/-- A processed file record (`FileData` in the source): path, base name,
declared media type, index timestamp, extracted text. -/
structure FileData where
  FullPath : String
  FileName : String
  MimeType : String
  IndexTime : Nat
  Text : String
deriving DecidableEq

/-- Result of invoking one extractor: extracted text, a returned error, or
process termination (`log.Fatalf` inside `ocrImageFile`). -/
inductive ExtractResult
  | ok (text : String)
  | err
  | fatal
deriving DecidableEq

/-- Errors surfaced by the fingerprint-store and eligibility code. -/
inductive GoErr
  | tooLarge (file : String)
  | commitFail
deriving DecidableEq

/-- Error returned by `Register` for an already-present key (the Go
`Attempt to register already existing mime type FileTranslator %q` error,
carrying the offending key). -/
inductive RegErr
  | duplicate (key : String)
deriving DecidableEq

/-- Error returned when neither the full type nor its category resolves
(the Go `Unhandled file format %q` error, carrying the original full
type). -/
inductive ResolveErr
  | unhandled (mt : String)
deriving DecidableEq

/-- The two concrete extraction functions the defaults map to:
`getPlainTextContent` and `ocrImageFile` (`FileTranslator` values in the
source). -/
inductive Translator
  | plainText
  | ocr
deriving DecidableEq

/-- Environment oracles: everything the pipeline reads from outside its own
control flow. `statSize` is `os.Stat(...).Size()`; `fs` the file's bytes as
read for hashing; `hash` the sha256 digest function; `mimeByExt` the result
of `mime.ParseMediaType(mime.TypeByExtension(ext))` (`none` when no media
type parses); `textRead` the result of reading the file as text in
`getPlainTextContent` (`none` on an IO error); `tessInitOk`, `pixOk`,
`setVarOk`, `ocrText` the tesseract/leptonica outcomes inside
`ocrImageFile`; `indexOk` whether `index.Index(fd)` succeeds; `commitOk`
whether the fingerprint write succeeds; `now` is `time.Now()`. -/
structure Env where
  statSize : String → Nat
  fs : String → Bytes
  hash : Bytes → Bytes
  mimeByExt : String → Option String
  textRead : String → Option String
  tessInitOk : Bool
  pixOk : String → Bool
  setVarOk : Bool
  ocrText : String → String
  indexOk : FileData → Bool
  commitOk : Bool
  now : Nat

/-- `HashFile` / `hashFile`: read the file's bytes and return their sha256
digest. -/
def HashFile (env : Env) (file : String) : Bytes := env.hash (env.fs file)

/-- The digest comparison loop of `CheckHash` / `checkHash`: element-wise
equality over the zipped byte strings (run by the code only after the
lengths were found equal). -/
def digestEqLoop (bs h : Bytes) : Bool :=
  (List.zip bs h).all (fun q => q.1 == q.2)

/-- `CheckHash(file, hash, hashDir)` / `processor.checkHash`: if no entry
file exists for the key, return `(false, nil)`; otherwise read the stored
bytes, return `(false, nil)` on a length mismatch or a differing byte, and
`(true, nil)` when every byte matches. The store is an in-memory map, so
the open/read IO-error branches of the code cannot arise here and the error
component is always `none`. -/
def CheckHash (store : Store) (key : String) (hash : Bytes) : Bool × Option GoErr :=
  match lookupAL store key with
  | none => (false, none)
  | some bs =>
      if bs.length ≠ hash.length then (false, none)
      else if digestEqLoop bs hash then (true, none)
      else (false, none)

/-- `WriteFileHash(file, hash, hashDir)`: create (or truncate) the entry
file named by the key and write the digest bytes, fully replacing any prior
entry. -/
def WriteFileHash (store : Store) (key : String) (hash : Bytes) : Store :=
  upsert store key hash

/-- `ocrImageFile`: tesseract initialization failure is `log.Fatalf`
(process termination, `fatal`); a `getPixImage` failure or a
`SetVariable` failure is a returned error; otherwise the recognized
text. -/
def ocrImageFile (env : Env) (file : String) : ExtractResult :=
  if ¬ env.tessInitOk then ExtractResult.fatal
  else if ¬ env.pixOk file then ExtractResult.err
  else if ¬ env.setVarOk then ExtractResult.err
  else ExtractResult.ok (env.ocrText file)

/-- `getPlainTextContent`: read the whole file as text; a returned error on
IO failure, never fatal. -/
def getPlainTextContent (env : Env) (file : String) : ExtractResult :=
  match env.textRead file with
  | none => ExtractResult.err
  | some t => ExtractResult.ok t

/-- Result of `ProcessFile` (main.go): a constructed record, a returned
error, or process termination propagated from `ocrImageFile`. -/
inductive ProcessResult
  | ok (fd : FileData)
  | err
  | fatal
deriving DecidableEq

/-- `ProcessFile` (main.go): derive the media type from the extension
(returning an error if none parses), build the `FileData` skeleton, then
switch on the category: `text` reads plain text, `application` OCRs only
`.pdf` (any other application subtype is unhandled), `image` OCRs, anything
else is unhandled. The boolean records whether an extractor was invoked. -/
def ProcessFile (env : Env) (file : String) : ProcessResult × Bool :=
  match env.mimeByExt (filepathExt file) with
  | none => (ProcessResult.err, false)
  | some mt =>
      let fd0 : FileData :=
        ⟨pathClean file, filepathBase file, mt, env.now, ""⟩
      if categoryOf mt = "text" then
        match getPlainTextContent env file with
        | ExtractResult.ok t => (ProcessResult.ok { fd0 with Text := t }, true)
        | ExtractResult.err => (ProcessResult.err, true)
        | ExtractResult.fatal => (ProcessResult.fatal, true)
      else if categoryOf mt = "application" then
        if toLowerStr (filepathExt file) = ".pdf" then
          match ocrImageFile env file with
          | ExtractResult.ok t => (ProcessResult.ok { fd0 with Text := t }, true)
          | ExtractResult.err => (ProcessResult.err, true)
          | ExtractResult.fatal => (ProcessResult.fatal, true)
        else (ProcessResult.err, false)
      else if categoryOf mt = "image" then
        match ocrImageFile env file with
        | ExtractResult.ok t => (ProcessResult.ok { fd0 with Text := t }, true)
        | ExtractResult.err => (ProcessResult.err, true)
        | ExtractResult.fatal => (ProcessResult.fatal, true)
      else (ProcessResult.err, false)

/-- The branch `IndexFile` exits through. `tooLarge`, `alreadyIndexed` and
`ok` log no error; `processErr`, `indexErr` and `commitErr` log one and
return; `fatal` is process termination from inside extraction. -/
inductive Outcome
  | tooLarge
  | alreadyIndexed
  | processErr
  | indexErr
  | commitErr
  | ok
  | fatal
deriving DecidableEq

/-- A call to `IndexFile` returns without reporting an error on the `ok`
path and on the unchanged-file skip path. -/
def Outcome.isSuccess : Outcome → Bool
  | Outcome.ok => true
  | Outcome.alreadyIndexed => true
  | _ => false

/-- One `IndexFile` call, with the effects the claims talk about: whether a
digest was computed, whether an extractor ran, whether the record was
submitted to the index, and the fingerprint store after the call. -/
structure RunResult where
  outcome : Outcome
  didHash : Bool
  didExtract : Bool
  didSubmit : Bool
  store : Store
deriving DecidableEq

/-- `IndexFile(file, hashDir, index)` (main.go): reject files over
1,000,000 bytes; hash the content; skip files whose digest matches the
entry stored under the file's base name; extract via `ProcessFile`; submit
to the index; only after a successful submission write the fingerprint
under `fd.FileName` (the base name) with the digest computed above. Every
error path returns without touching the store. -/
def IndexFile (env : Env) (store : Store) (file : String) : RunResult :=
  if env.statSize file > 1000000 then
    ⟨Outcome.tooLarge, false, false, false, store⟩
  else if (CheckHash store (filepathBase file) (HashFile env file)).1 then
    ⟨Outcome.alreadyIndexed, true, false, false, store⟩
  else
    match ProcessFile env file with
    | (ProcessResult.err, e) => ⟨Outcome.processErr, true, e, false, store⟩
    | (ProcessResult.fatal, e) => ⟨Outcome.fatal, true, e, false, store⟩
    | (ProcessResult.ok fd, e) =>
        if ¬ env.indexOk fd then ⟨Outcome.indexErr, true, e, true, store⟩
        else if ¬ env.commitOk then ⟨Outcome.commitErr, true, e, true, store⟩
        else
          ⟨Outcome.ok, true, e, true,
            WriteFileHash store fd.FileName (HashFile env file)⟩

/-- Walk loop of `IndexDirectory`: each file is handed to `IndexFile` and
the walk continues regardless of that file's outcome — except that a
`fatal` outcome (a `log.Fatalf` inside extraction) terminates the whole
process, leaving the remaining files unvisited. Returns the per-file
outcomes in order, the final store, and whether the process died. -/
def IndexDirectoryGo (env : Env) :
    List String → Store → List (String × Outcome) →
    List (String × Outcome) × Store × Bool
  | [], store, acc => (acc.reverse, store, false)
  | f :: rest, store, acc =>
      if (IndexFile env store f).outcome = Outcome.fatal then
        (acc.reverse ++ [(f, Outcome.fatal)], (IndexFile env store f).store, true)
      else
        IndexDirectoryGo env rest (IndexFile env store f).store
          ((f, (IndexFile env store f).outcome) :: acc)

/-- `IndexDirectory(dir, hashDir, index)` (main.go), restricted to the
regular files the walk visits, in walk order. -/
def IndexDirectory (env : Env) (store : Store) (files : List String) :
    List (String × Outcome) × Store × Bool :=
  IndexDirectoryGo env files store []

/-- `processor.Register(mime, ft)`: error (map untouched) if the key is
already registered, otherwise add the new handler. Generic in the handler
type, as the theorems about it are. -/
def Register {α : Type} (handlers : List (String × α)) (key : String)
    (ft : α) : Option RegErr × List (String × α) :=
  match lookupAL handlers key with
  | some _ => (some (RegErr.duplicate key), handlers)
  | none => (none, upsert handlers key ft)

/-- The extractor-resolution logic inlined in `processor.Process`: exact
lookup on the full media type first, then lookup on its category prefix,
else the `Unhandled file format` error naming the original full type. -/
def resolveTranslator {α : Type} (handlers : List (String × α))
    (mt : String) : Except ResolveErr α :=
  match lookupAL handlers mt with
  | some ft => Except.ok ft
  | none =>
      match lookupAL handlers (categoryOf mt) with
      | some ft => Except.ok ft
      | none => Except.error (ResolveErr.unhandled mt)

/-- `processor.registerDefaults`: the built-in handler map — categories
`text` and `image`, plus exact types `application/javascript` and
`application/pdf`. -/
def registerDefaults : List (String × Translator) :=
  [("text", Translator.plainText),
   ("image", Translator.ocr),
   ("application/javascript", Translator.plainText),
   ("application/pdf", Translator.ocr)]

/-- Dispatch a registered handler tag to its extraction function. -/
def applyTranslator (env : Env) : Translator → String → ExtractResult
  | Translator.plainText, f => getPlainTextContent env f
  | Translator.ocr, f => ocrImageFile env f

/-- `processor.ShouldProcess(file)`: reject files over 1,000,000 bytes with
an error, hash the content, and report `false` (no error) when the digest
matches the entry stored under the file's base name, `true` otherwise.
The boolean in the second component records whether a digest was
computed. -/
def ShouldProcess (env : Env) (store : Store) (file : String) :
    (Bool × Option GoErr) × Bool :=
  if env.statSize file > 1000000 then
    ((false, some (GoErr.tooLarge file)), false)
  else if (CheckHash store (filepathBase file) (HashFile env file)).1 then
    ((false, none), true)
  else ((true, none), true)

/-- `processor.finishFile(file)`: re-read and re-hash the file at the given
path, then create the entry file named by that path under the hash
directory and write the digest. -/
def finishFile (env : Env) (store : Store) (file : String) :
    Option GoErr × Store :=
  if env.commitOk then (none, upsert store file (HashFile env file))
  else (some GoErr.commitFail, store)

/-- `processor.Process(file)`: derive the media type (error if none
parses), resolve a handler — exact type first, then category — run it,
submit the record to the index, and on success call
`finishFile(fd.FullPath)`: the fingerprint is committed under the cleaned
full path, with a digest recomputed from the file at commit time. -/
def processorProcess (env : Env) (handlers : List (String × Translator))
    (store : Store) (file : String) : RunResult :=
  match env.mimeByExt (filepathExt file) with
  | none => ⟨Outcome.processErr, false, false, false, store⟩
  | some mt =>
      match resolveTranslator handlers mt with
      | Except.error _ => ⟨Outcome.processErr, false, false, false, store⟩
      | Except.ok ft =>
          match applyTranslator env ft file with
          | ExtractResult.fatal => ⟨Outcome.fatal, false, true, false, store⟩
          | ExtractResult.err => ⟨Outcome.processErr, false, true, false, store⟩
          | ExtractResult.ok t =>
              if ¬ env.indexOk ⟨pathClean file, filepathBase file, mt, env.now, t⟩ then
                ⟨Outcome.indexErr, false, true, true, store⟩
              else
                match finishFile env store (pathClean file) with
                | (none, store') => ⟨Outcome.ok, true, true, true, store'⟩
                | (some _, store') => ⟨Outcome.commitErr, true, true, true, store'⟩

/-- `bleveIndex.Put(data)`: index the document under the key
`data.FullPath`, replacing any prior document at that key (bleve `Index`
is an upsert on the document id). -/
def Put (idx : List (String × FileData)) (fd : FileData) :
    List (String × FileData) :=
  upsert idx fd.FullPath fd

/-- Concrete environment where every external step succeeds: `.txt` files
parse as `text/plain`, reads succeed, the index accepts every record and
fingerprint writes succeed. -/
def envGood : Env :=
  ⟨fun _ => 5, fun _ => [104, 105], fun bs => 7 :: bs,
   fun e => if e = ".txt" then some "text/plain" else none,
   fun _ => some "hi", true, fun _ => true, true, fun _ => "pic",
   fun _ => true, true, 0⟩

/-- Same as `envGood` except every index submission fails. -/
def envIdxFail : Env :=
  ⟨fun _ => 5, fun _ => [104, 105], fun bs => 7 :: bs,
   fun e => if e = ".txt" then some "text/plain" else none,
   fun _ => some "hi", true, fun _ => true, true, fun _ => "pic",
   fun _ => false, true, 0⟩

/-- Environment whose every file stats at 1,000,001 bytes. -/
def envBig : Env :=
  ⟨fun _ => 1000001, fun _ => [], fun bs => bs, fun _ => none,
   fun _ => none, true, fun _ => true, true, fun _ => "",
   fun _ => true, true, 0⟩

/-- Environment where tesseract initialization fails; `.png` files resolve
to `image/png` and `.txt` files to `text/plain`. -/
def envTessFail : Env :=
  ⟨fun _ => 5, fun _ => [104], fun bs => bs,
   fun e => if e = ".png" then some "image/png"
            else if e = ".txt" then some "text/plain" else none,
   fun _ => some "hi", false, fun _ => true, true, fun _ => "pic",
   fun _ => true, true, 0⟩

/-- Environment with healthy tesseract where `.xyz` has no media type (so
such a file fails with an error) while `.txt` files succeed. -/
def envMixed : Env :=
  ⟨fun _ => 5, fun _ => [104], fun bs => bs,
   fun e => if e = ".txt" then some "text/plain" else none,
   fun _ => some "hi", true, fun _ => true, true, fun _ => "pic",
   fun _ => true, true, 0⟩

/-- A concrete record at path `/a/n.txt`. -/
def fdA : FileData := ⟨"/a/n.txt", "n.txt", "text/plain", 0, "one"⟩

/-- A later record at the same path `/a/n.txt` as `fdA`. -/
def fdB : FileData := ⟨"/a/n.txt", "n.txt", "text/plain", 1, "two"⟩

/-- A record at the distinct path `/b/n.txt`, sharing the base name. -/
def fdC : FileData := ⟨"/b/n.txt", "n.txt", "text/plain", 2, "three"⟩

/-! Helper lemmas shared by the claim theorems. -/

theorem lookupAL_upsert_self {β : Type} (m : List (String × β)) (k : String)
    (v : β) : lookupAL (upsert m k v) k = some v := by
  induction m with
  | nil => simp [upsert, lookupAL]
  | cons p rest ih =>
    obtain ⟨k', v'⟩ := p
    by_cases h : k' = k
    · simp [upsert, h, lookupAL]
    · simp [upsert, h, lookupAL, ih]

theorem lookupAL_upsert_ne {β : Type} (m : List (String × β)) (k k' : String)
    (v : β) (h : k' ≠ k) : lookupAL (upsert m k v) k' = lookupAL m k' := by
  have hk : ¬ (k = k') := fun hh => h hh.symm
  induction m with
  | nil => simp [upsert, lookupAL, hk]
  | cons p rest ih =>
    obtain ⟨a, b⟩ := p
    by_cases ha : a = k
    · subst ha
      simp [upsert, lookupAL, hk]
    · simp only [upsert, if_neg ha, lookupAL]
      by_cases hb : a = k'
      · simp [hb]
      · simp [hb, ih]

theorem digestEqLoop_self (bs : Bytes) : digestEqLoop bs bs = true := by
  induction bs with
  | nil => rfl
  | cons b rest ih => simp [digestEqLoop, List.zip]

theorem digestEqLoop_eq_iff (bs hs : Bytes) (hl : bs.length = hs.length) :
    digestEqLoop bs hs = true ↔ bs = hs := by
  induction bs generalizing hs with
  | nil =>
    cases hs with
    | nil => simp [digestEqLoop]
    | cons x xs => simp at hl
  | cons b rest ih =>
    cases hs with
    | nil => simp at hl
    | cons x xs =>
      simp only [List.length_cons, Nat.succ.injEq] at hl
      have hz : digestEqLoop (b :: rest) (x :: xs)
          = ((b == x) && digestEqLoop rest xs) := rfl
      rw [hz, Bool.and_eq_true, beq_iff_eq]
      constructor
      · rintro ⟨h1, h2⟩
        rw [h1, (ih xs hl).1 h2]
      · intro hh
        injection hh with h1 h2
        exact ⟨h1, (ih xs hl).2 h2⟩

theorem CheckHash_fst_true_iff (store : Store) (key : String) (hs : Bytes) :
    (CheckHash store key hs).1 = true ↔ lookupAL store key = some hs := by
  unfold CheckHash
  cases hl : lookupAL store key with
  | none => simp
  | some bs =>
    by_cases hlen : bs.length = hs.length
    · by_cases heq : bs = hs
      · subst heq
        simp [hlen, digestEqLoop_self]
      · have hd : ¬ (digestEqLoop bs hs = true) :=
          fun hh => heq ((digestEqLoop_eq_iff bs hs hlen).1 hh)
        simp [hlen, hd, heq]
    · have hne : bs ≠ hs := fun hh => hlen (by rw [hh])
      simp [hlen, hne]

theorem CheckHash_upsert_self (store : Store) (k : String) (h : Bytes) :
    (CheckHash (upsert store k h) k h).1 = true :=
  (CheckHash_fst_true_iff _ _ _).2 (lookupAL_upsert_self store k h)

theorem ProcessFile_ok_fileName (env : Env) (file : String)
    (fd : FileData) (e : Bool) (hp : ProcessFile env file = (ProcessResult.ok fd, e)) :
    fd.FileName = filepathBase file := by
  unfold ProcessFile at hp
  cases hm : env.mimeByExt (filepathExt file) with
  | none => rw [hm] at hp; exact absurd hp (by simp)
  | some mt =>
    rw [hm] at hp
    simp only at hp
    split at hp
    · cases hg : getPlainTextContent env file with
      | ok t => rw [hg] at hp; cases hp; rfl
      | err => rw [hg] at hp; exact absurd hp (by simp)
      | fatal => rw [hg] at hp; exact absurd hp (by simp)
    · split at hp
      · split at hp
        · cases ho : ocrImageFile env file with
          | ok t => rw [ho] at hp; cases hp; rfl
          | err => rw [ho] at hp; exact absurd hp (by simp)
          | fatal => rw [ho] at hp; exact absurd hp (by simp)
        · exact absurd hp (by simp)
      · split at hp
        · cases ho : ocrImageFile env file with
          | ok t => rw [ho] at hp; cases hp; rfl
          | err => rw [ho] at hp; exact absurd hp (by simp)
          | fatal => rw [ho] at hp; exact absurd hp (by simp)
        · exact absurd hp (by simp)

theorem ocrImageFile_fatal (env : Env) (file : String)
    (h : ocrImageFile env file = ExtractResult.fatal) :
    env.tessInitOk = false := by
  by_cases ht : env.tessInitOk = true
  · exfalso
    unfold ocrImageFile at h
    simp only [ht] at h
    by_cases hp : env.pixOk file = true
    · by_cases hv : env.setVarOk = true
      · simp [hp, hv] at h
      · simp [hp, hv] at h
    · simp [hp] at h
  · simpa using ht

theorem getPlainTextContent_ne_fatal (env : Env) (file : String) :
    getPlainTextContent env file ≠ ExtractResult.fatal := by
  unfold getPlainTextContent
  cases env.textRead file <;> simp

theorem ProcessFile_fatal_tess (env : Env) (file : String)
    (h : (ProcessFile env file).1 = ProcessResult.fatal) :
    env.tessInitOk = false := by
  unfold ProcessFile at h
  cases hm : env.mimeByExt (filepathExt file) with
  | none => rw [hm] at h; simp at h
  | some mt =>
    rw [hm] at h
    simp only at h
    split at h
    · cases hg : getPlainTextContent env file with
      | ok t => rw [hg] at h; simp at h
      | err => rw [hg] at h; simp at h
      | fatal => exact absurd hg (getPlainTextContent_ne_fatal env file)
    · split at h
      · split at h
        · cases ho : ocrImageFile env file with
          | ok t => rw [ho] at h; simp at h
          | err => rw [ho] at h; simp at h
          | fatal => exact ocrImageFile_fatal env file ho
        · simp at h
      · split at h
        · cases ho : ocrImageFile env file with
          | ok t => rw [ho] at h; simp at h
          | err => rw [ho] at h; simp at h
          | fatal => exact ocrImageFile_fatal env file ho
        · simp at h

theorem IndexFile_eq_tooLarge (env : Env) (store : Store) (file : String)
    (hsize : env.statSize file > 1000000) :
    IndexFile env store file =
      ⟨Outcome.tooLarge, false, false, false, store⟩ := by
  unfold IndexFile
  rw [if_pos hsize]

theorem IndexFile_on_matching (env : Env) (store' : Store) (file : String)
    (hsz : ¬ (env.statSize file > 1000000))
    (hchk : (CheckHash store' (filepathBase file) (HashFile env file)).1 = true) :
    IndexFile env store' file =
      ⟨Outcome.alreadyIndexed, true, false, false, store'⟩ := by
  unfold IndexFile
  rw [if_neg hsz, if_pos hchk]

theorem IndexFile_eq_err (env : Env) (store : Store) (file : String)
    (e : Bool) (hsize : ¬ (env.statSize file > 1000000))
    (hchk : ¬ ((CheckHash store (filepathBase file) (HashFile env file)).1 = true))
    (hp : ProcessFile env file = (ProcessResult.err, e)) :
    IndexFile env store file =
      ⟨Outcome.processErr, true, e, false, store⟩ := by
  simp only [IndexFile, hp]
  rw [if_neg hsize, if_neg hchk]

theorem IndexFile_eq_fatal (env : Env) (store : Store) (file : String)
    (e : Bool) (hsize : ¬ (env.statSize file > 1000000))
    (hchk : ¬ ((CheckHash store (filepathBase file) (HashFile env file)).1 = true))
    (hp : ProcessFile env file = (ProcessResult.fatal, e)) :
    IndexFile env store file = ⟨Outcome.fatal, true, e, false, store⟩ := by
  simp only [IndexFile, hp]
  rw [if_neg hsize, if_neg hchk]

theorem IndexFile_eq_indexErr (env : Env) (store : Store) (file : String)
    (fd : FileData) (e : Bool) (hsize : ¬ (env.statSize file > 1000000))
    (hchk : ¬ ((CheckHash store (filepathBase file) (HashFile env file)).1 = true))
    (hp : ProcessFile env file = (ProcessResult.ok fd, e))
    (hidx : env.indexOk fd = false) :
    IndexFile env store file = ⟨Outcome.indexErr, true, e, true, store⟩ := by
  simp only [IndexFile, hp]
  rw [if_neg hsize, if_neg hchk, if_pos (by simp [hidx])]

theorem IndexFile_eq_commitErr (env : Env) (store : Store) (file : String)
    (fd : FileData) (e : Bool) (hsize : ¬ (env.statSize file > 1000000))
    (hchk : ¬ ((CheckHash store (filepathBase file) (HashFile env file)).1 = true))
    (hp : ProcessFile env file = (ProcessResult.ok fd, e))
    (hidx : env.indexOk fd = true) (hcmt : env.commitOk = false) :
    IndexFile env store file = ⟨Outcome.commitErr, true, e, true, store⟩ := by
  simp only [IndexFile, hp]
  rw [if_neg hsize, if_neg hchk, if_neg (by simp [hidx]),
      if_pos (by simp [hcmt])]

theorem IndexFile_eq_ok (env : Env) (store : Store) (file : String)
    (fd : FileData) (e : Bool) (hsize : ¬ (env.statSize file > 1000000))
    (hchk : ¬ ((CheckHash store (filepathBase file) (HashFile env file)).1 = true))
    (hp : ProcessFile env file = (ProcessResult.ok fd, e))
    (hidx : env.indexOk fd = true) (hcmt : env.commitOk = true) :
    IndexFile env store file =
      ⟨Outcome.ok, true, e, true,
        WriteFileHash store (filepathBase file) (HashFile env file)⟩ := by
  simp only [IndexFile, hp]
  rw [if_neg hsize, if_neg hchk, if_neg (by simp [hidx]),
      if_neg (by simp [hcmt]), ProcessFile_ok_fileName env file fd e hp]

theorem IndexFile_indexErr_inv (env : Env) (store : Store) (file : String)
    (hout : (IndexFile env store file).outcome = Outcome.indexErr) :
    (IndexFile env store file).store = store ∧
    (CheckHash store (filepathBase file) (HashFile env file)).1 = false := by
  by_cases hsize : env.statSize file > 1000000
  · rw [IndexFile_eq_tooLarge env store file hsize] at hout; simp at hout
  · by_cases hchk : (CheckHash store (filepathBase file) (HashFile env file)).1 = true
    · rw [IndexFile_on_matching env store file hsize hchk] at hout; simp at hout
    · cases hp : ProcessFile env file with
      | mk pr e =>
        cases pr with
        | err =>
          rw [IndexFile_eq_err env store file e hsize hchk hp] at hout
          simp at hout
        | fatal =>
          rw [IndexFile_eq_fatal env store file e hsize hchk hp] at hout
          simp at hout
        | ok fd =>
          by_cases hidx : env.indexOk fd = true
          · by_cases hcmt : env.commitOk = true
            · rw [IndexFile_eq_ok env store file fd e hsize hchk hp hidx hcmt]
                at hout
              simp at hout
            · rw [IndexFile_eq_commitErr env store file fd e hsize hchk hp hidx
                (Bool.not_eq_true _ ▸ hcmt)] at hout
              simp at hout
          · rw [IndexFile_eq_indexErr env store file fd e hsize hchk hp
              (Bool.not_eq_true _ ▸ hidx)]
            exact ⟨rfl, Bool.not_eq_true _ ▸ hchk⟩

theorem IndexFile_store_changed (env : Env) (store : Store) (file : String)
    (hst : (IndexFile env store file).store ≠ store) :
    ∃ fd e, ProcessFile env file = (ProcessResult.ok fd, e) ∧
      env.indexOk fd = true ∧
      (IndexFile env store file).outcome = Outcome.ok ∧
      (IndexFile env store file).store =
        WriteFileHash store (filepathBase file) (HashFile env file) := by
  by_cases hsize : env.statSize file > 1000000
  · rw [IndexFile_eq_tooLarge env store file hsize] at hst; simp at hst
  · by_cases hchk : (CheckHash store (filepathBase file) (HashFile env file)).1 = true
    · rw [IndexFile_on_matching env store file hsize hchk] at hst; simp at hst
    · cases hp : ProcessFile env file with
      | mk pr e =>
        cases pr with
        | err =>
          rw [IndexFile_eq_err env store file e hsize hchk hp] at hst
          simp at hst
        | fatal =>
          rw [IndexFile_eq_fatal env store file e hsize hchk hp] at hst
          simp at hst
        | ok fd =>
          by_cases hidx : env.indexOk fd = true
          · by_cases hcmt : env.commitOk = true
            · rw [IndexFile_eq_ok env store file fd e hsize hchk hp hidx hcmt]
              exact ⟨fd, e, rfl, hidx, rfl, rfl⟩
            · rw [IndexFile_eq_commitErr env store file fd e hsize hchk hp hidx
                (Bool.not_eq_true _ ▸ hcmt)] at hst
              simp at hst
          · rw [IndexFile_eq_indexErr env store file fd e hsize hchk hp
              (Bool.not_eq_true _ ▸ hidx)] at hst
            simp at hst

theorem IndexFile_ok_inv (env : Env) (store : Store) (file : String)
    (hout : (IndexFile env store file).outcome = Outcome.ok) :
    ¬ (env.statSize file > 1000000) ∧
    (IndexFile env store file).store =
      upsert store (filepathBase file) (HashFile env file) := by
  by_cases hsize : env.statSize file > 1000000
  · rw [IndexFile_eq_tooLarge env store file hsize] at hout; simp at hout
  · by_cases hchk : (CheckHash store (filepathBase file) (HashFile env file)).1 = true
    · rw [IndexFile_on_matching env store file hsize hchk] at hout; simp at hout
    · cases hp : ProcessFile env file with
      | mk pr e =>
        cases pr with
        | err =>
          rw [IndexFile_eq_err env store file e hsize hchk hp] at hout
          simp at hout
        | fatal =>
          rw [IndexFile_eq_fatal env store file e hsize hchk hp] at hout
          simp at hout
        | ok fd =>
          by_cases hidx : env.indexOk fd = true
          · by_cases hcmt : env.commitOk = true
            · rw [IndexFile_eq_ok env store file fd e hsize hchk hp hidx hcmt]
              exact ⟨hsize, rfl⟩
            · rw [IndexFile_eq_commitErr env store file fd e hsize hchk hp hidx
                (Bool.not_eq_true _ ▸ hcmt)] at hout
              simp at hout
          · rw [IndexFile_eq_indexErr env store file fd e hsize hchk hp
              (Bool.not_eq_true _ ▸ hidx)] at hout
            simp at hout

theorem IndexFile_fatal_tess (env : Env) (store : Store) (file : String)
    (h : (IndexFile env store file).outcome = Outcome.fatal) :
    env.tessInitOk = false := by
  by_cases hsize : env.statSize file > 1000000
  · rw [IndexFile_eq_tooLarge env store file hsize] at h; simp at h
  · by_cases hchk : (CheckHash store (filepathBase file) (HashFile env file)).1 = true
    · rw [IndexFile_on_matching env store file hsize hchk] at h; simp at h
    · cases hp : ProcessFile env file with
      | mk pr e =>
        cases pr with
        | err =>
          rw [IndexFile_eq_err env store file e hsize hchk hp] at h
          simp at h
        | fatal => exact ProcessFile_fatal_tess env file (by rw [hp])
        | ok fd =>
          by_cases hidx : env.indexOk fd = true
          · by_cases hcmt : env.commitOk = true
            · rw [IndexFile_eq_ok env store file fd e hsize hchk hp hidx hcmt]
                at h
              simp at h
            · rw [IndexFile_eq_commitErr env store file fd e hsize hchk hp hidx
                (Bool.not_eq_true _ ▸ hcmt)] at h
              simp at h
          · rw [IndexFile_eq_indexErr env store file fd e hsize hchk hp
              (Bool.not_eq_true _ ▸ hidx)] at h
            simp at h

theorem processorProcess_store_cases (env : Env)
    (handlers : List (String × Translator)) (store : Store) (file : String) :
    (processorProcess env handlers store file).store = store ∨
    (processorProcess env handlers store file).outcome = Outcome.ok ∨
    (processorProcess env handlers store file).outcome = Outcome.commitErr := by
  unfold processorProcess
  split
  · exact Or.inl rfl
  · split
    · exact Or.inl rfl
    · split
      · exact Or.inl rfl
      · exact Or.inl rfl
      · split
        · exact Or.inl rfl
        · split
          · exact Or.inr (Or.inl rfl)
          · exact Or.inr (Or.inr rfl)

theorem processorProcess_indexErr_store (env : Env)
    (handlers : List (String × Translator)) (store : Store) (file : String)
    (h : (processorProcess env handlers store file).outcome = Outcome.indexErr) :
    (processorProcess env handlers store file).store = store := by
  rcases processorProcess_store_cases env handlers store file with hc | ho | ho
  · exact hc
  · rw [h] at ho; simp at ho
  · rw [h] at ho; simp at ho

theorem IndexDirectoryGo_total (env : Env) (hok : env.tessInitOk = true) :
    ∀ (files : List String) (store : Store) (acc : List (String × Outcome)),
      (IndexDirectoryGo env files store acc).2.2 = false ∧
      (IndexDirectoryGo env files store acc).1.map Prod.fst =
        acc.reverse.map Prod.fst ++ files := by
  intro files
  induction files with
  | nil =>
    intro store acc
    simp [IndexDirectoryGo]
  | cons f rest ih =>
    intro store acc
    have hnf : ¬ ((IndexFile env store f).outcome = Outcome.fatal) := by
      intro hc
      have h2 := IndexFile_fatal_tess env store f hc
      rw [hok] at h2
      simp at h2
    simp only [IndexDirectoryGo]
    rw [if_neg hnf]
    obtain ⟨ha, hb⟩ :=
      ih (IndexFile env store f).store ((f, (IndexFile env store f).outcome) :: acc)
    refine ⟨ha, ?_⟩
    rw [hb]
    simp

/-! The claim theorems. -/

/-- C1: if the index submission step fails, no fingerprint is committed:
the store is unchanged and a subsequent `CheckHash` for the file's base
name and digest still returns false; conversely a store changed by the call
means the call's record was successfully submitted to the index and the
entry written is the base name mapped to the digest of that exact content;
the processor variant's `Process` likewise leaves the store untouched when
the index write fails. -/
theorem c1_commit_atomicity (env : Env) (handlers : List (String × Translator))
    (store : Store) (file : String) :
    ((IndexFile env store file).outcome = Outcome.indexErr →
      (IndexFile env store file).store = store ∧
      (CheckHash (IndexFile env store file).store (filepathBase file)
        (HashFile env file)).1 = false) ∧
    ((IndexFile env store file).store ≠ store →
      ∃ fd e, ProcessFile env file = (ProcessResult.ok fd, e) ∧
        env.indexOk fd = true ∧
        (IndexFile env store file).outcome = Outcome.ok ∧
        (IndexFile env store file).store =
          WriteFileHash store (filepathBase file) (HashFile env file)) ∧
    ((processorProcess env handlers store file).outcome = Outcome.indexErr →
      (processorProcess env handlers store file).store = store) := by
  refine ⟨?_, IndexFile_store_changed env store file,
    processorProcess_indexErr_store env handlers store file⟩
  intro hout
  obtain ⟨h1, h2⟩ := IndexFile_indexErr_inv env store file hout
  refine ⟨h1, ?_⟩
  rw [h1]
  exact h2

/-- C1 witness: a concrete failing index write leaves the store empty and
the base-name check false; a concrete successful run changes the store as
described; the processor variant with the failing index also keeps its
store. -/
theorem c1_commit_atomicity_witness :
    ((IndexFile envIdxFail [] "a.txt").store = [] ∧
      (CheckHash (IndexFile envIdxFail [] "a.txt").store (filepathBase "a.txt")
        (HashFile envIdxFail "a.txt")).1 = false) ∧
    (∃ fd e, ProcessFile envGood "a.txt" = (ProcessResult.ok fd, e) ∧
      envGood.indexOk fd = true ∧
      (IndexFile envGood [] "a.txt").outcome = Outcome.ok ∧
      (IndexFile envGood [] "a.txt").store =
        WriteFileHash [] (filepathBase "a.txt") (HashFile envGood "a.txt")) ∧
    (processorProcess envIdxFail registerDefaults [] "a.txt").store = [] :=
  ⟨(c1_commit_atomicity envIdxFail registerDefaults [] "a.txt").1 (by decide),
   (c1_commit_atomicity envGood registerDefaults [] "a.txt").2.1 (by decide),
   (c1_commit_atomicity envIdxFail registerDefaults [] "a.txt").2.2 (by decide)⟩

/-- C2: if a first `IndexFile` call on a file succeeds, a second call on
the same unchanged file under the resulting store takes the unchanged-file
fast path: no extraction, no index submission, store untouched, and both
calls return success. -/
theorem c2_idempotent_noop (env : Env) (store : Store) (file : String)
    (h1 : (IndexFile env store file).outcome = Outcome.ok) :
    IndexFile env (IndexFile env store file).store file =
      ⟨Outcome.alreadyIndexed, true, false, false,
        (IndexFile env store file).store⟩ ∧
    Outcome.isSuccess (IndexFile env store file).outcome = true ∧
    Outcome.isSuccess
      (IndexFile env (IndexFile env store file).store file).outcome = true := by
  obtain ⟨hsz, hstore⟩ := IndexFile_ok_inv env store file h1
  have hchk : (CheckHash (IndexFile env store file).store (filepathBase file)
      (HashFile env file)).1 = true := by
    rw [hstore]
    exact CheckHash_upsert_self store (filepathBase file) (HashFile env file)
  have h2 := IndexFile_on_matching env (IndexFile env store file).store file hsz hchk
  refine ⟨h2, ?_, ?_⟩
  · rw [h1]
    rfl
  · rw [h2]
    rfl

/-- C2 witness: after a concrete successful first call, the second call on
the unchanged file is the fast-path skip. -/
theorem c2_idempotent_noop_witness :
    IndexFile envGood (IndexFile envGood [] "a.txt").store "a.txt" =
      ⟨Outcome.alreadyIndexed, true, false, false,
        (IndexFile envGood [] "a.txt").store⟩ ∧
    Outcome.isSuccess (IndexFile envGood [] "a.txt").outcome = true ∧
    Outcome.isSuccess
      (IndexFile envGood (IndexFile envGood [] "a.txt").store "a.txt").outcome
      = true :=
  c2_idempotent_noop envGood [] "a.txt" (by decide)

/-- C3: extractor resolution tries an exact match on the full type first;
only if that is absent it tries the category, the substring before the
first `/`; if both handlers are registered the full-type handler is
returned; if neither is registered it fails with the error naming the
original full type. -/
theorem c3_resolve_order (α : Type) (handlers : List (String × α))
    (mt : String) (f g : α) :
    (lookupAL handlers mt = some f →
      resolveTranslator handlers mt = Except.ok f) ∧
    (lookupAL handlers mt = none →
      lookupAL handlers (categoryOf mt) = some g →
      resolveTranslator handlers mt = Except.ok g) ∧
    (lookupAL handlers mt = none →
      lookupAL handlers (categoryOf mt) = none →
      resolveTranslator handlers mt =
        Except.error (ResolveErr.unhandled mt)) := by
  refine ⟨fun h1 => ?_, fun h1 h2 => ?_, fun h1 h2 => ?_⟩
  · simp only [resolveTranslator, h1]
  · simp only [resolveTranslator, h1, h2]
  · simp only [resolveTranslator, h1, h2]

/-- C3 witness: with both an exact handler for `application/pdf` and a
category handler for `application`, the exact handler wins; with no exact
handler, `application/octet-stream` falls back to the category handler;
with neither, resolution of `image/png` fails naming `image/png`. -/
theorem c3_resolve_order_witness :
    resolveTranslator [("application/pdf", 1), ("application", 2)]
      "application/pdf" = Except.ok 1 ∧
    resolveTranslator [("application/pdf", 1), ("application", 2)]
      "application/octet-stream" = Except.ok 2 ∧
    resolveTranslator [("application/pdf", 1)] "image/png" =
      Except.error (ResolveErr.unhandled "image/png") :=
  ⟨(c3_resolve_order Nat [("application/pdf", 1), ("application", 2)]
      "application/pdf" 1 2).1 (by decide),
   (c3_resolve_order Nat [("application/pdf", 1), ("application", 2)]
      "application/octet-stream" 1 2).2.1 (by decide) (by decide),
   (c3_resolve_order Nat [("application/pdf", 1)] "image/png" 1 1).2.2
      (by decide) (by decide)⟩

/-- C4: evaluating the processor pipeline at `dir/notes.txt` with a
successful index write: the fingerprint is committed under the cleaned full
path `dir/notes.txt`, not under the base name `notes.txt`, and the
base-name `CheckHash` that `ShouldProcess` performs cannot see the entry;
the `IndexFile` pipeline of main.go on the same input commits under the
base name with the digest it compared, as the claim states. -/
theorem c4_commit_key_divergence :
    (processorProcess envGood registerDefaults [] "dir/notes.txt").outcome
      = Outcome.ok ∧
    (processorProcess envGood registerDefaults [] "dir/notes.txt").store =
      [("dir/notes.txt", HashFile envGood "dir/notes.txt")] ∧
    filepathBase "dir/notes.txt" = "notes.txt" ∧
    lookupAL (processorProcess envGood registerDefaults [] "dir/notes.txt").store
      "notes.txt" = none ∧
    (CheckHash (processorProcess envGood registerDefaults [] "dir/notes.txt").store
      (filepathBase "dir/notes.txt") (HashFile envGood "dir/notes.txt")).1
      = false ∧
    (IndexFile envGood [] "dir/notes.txt").store =
      [("notes.txt", HashFile envGood "dir/notes.txt")] := by decide

/-- C5: `CheckHash` returns true iff a persisted entry exists for the key
whose stored bytes equal the given digest in length and content; a stored
entry of different length yields `(false, none)`; absence of any entry
yields `(false, none)` rather than an error, and the error component is
never set. -/
theorem c5_check_hash (store : Store) (key : String) (hs : Bytes) :
    ((CheckHash store key hs).1 = true ↔ lookupAL store key = some hs) ∧
    (CheckHash store key hs).2 = none ∧
    (lookupAL store key = none → CheckHash store key hs = (false, none)) ∧
    (∀ bs, lookupAL store key = some bs → bs.length ≠ hs.length →
      CheckHash store key hs = (false, none)) := by
  refine ⟨CheckHash_fst_true_iff store key hs, ?_, ?_, ?_⟩
  · unfold CheckHash
    cases lookupAL store key with
    | none => rfl
    | some bs =>
      by_cases hlen : bs.length = hs.length
      · by_cases heq : digestEqLoop bs hs = true
        · simp [hlen, heq]
        · simp [hlen, heq]
      · simp [hlen]
  · intro h1
    unfold CheckHash
    rw [h1]
  · intro bs h1 h2
    unfold CheckHash
    rw [h1]
    simp [h2]

/-- C5 witness: a missing key gives `(false, none)`; a stored digest of the
wrong length gives `(false, none)`; the matching digest is found. -/
theorem c5_check_hash_witness :
    CheckHash [("k", [1, 2])] "x" [1, 2] = (false, none) ∧
    CheckHash [("k", [1, 2])] "k" [1] = (false, none) ∧
    (CheckHash [("k", [1, 2])] "k" [1, 2]).1 = true :=
  ⟨(c5_check_hash [("k", [1, 2])] "x" [1, 2]).2.2.1 (by decide),
   (c5_check_hash [("k", [1, 2])] "k" [1]).2.2.2 [1, 2] (by decide) (by decide),
   (c5_check_hash [("k", [1, 2])] "k" [1, 2]).1.2 (by decide)⟩

/-- C6: registering a type key already present (the built-in defaults
included) fails with the duplicate error and leaves the registry unchanged;
registering an absent key succeeds and a subsequent resolve of that key
returns the newly registered handler; all four built-in default keys are
present. -/
theorem c6_register_duplicates (α : Type) (handlers : List (String × α))
    (k : String) (f : α) :
    (∀ g, lookupAL handlers k = some g →
      Register handlers k f = (some (RegErr.duplicate k), handlers)) ∧
    (lookupAL handlers k = none →
      (Register handlers k f).1 = none ∧
      resolveTranslator (Register handlers k f).2 k = Except.ok f) ∧
    (lookupAL registerDefaults "text" ≠ none ∧
     lookupAL registerDefaults "image" ≠ none ∧
     lookupAL registerDefaults "application/javascript" ≠ none ∧
     lookupAL registerDefaults "application/pdf" ≠ none) := by
  refine ⟨?_, ?_, by decide, by decide, by decide, by decide⟩
  · intro g hg
    unfold Register
    rw [hg]
  · intro hnone
    unfold Register
    rw [hnone]
    refine ⟨rfl, ?_⟩
    show resolveTranslator (upsert handlers k f) k = Except.ok f
    unfold resolveTranslator
    rw [lookupAL_upsert_self]

/-- C6 witness: re-registering the default `text` key fails and keeps the
default registry; registering the fresh key `text/x-org` succeeds and then
resolves to the new handler. -/
theorem c6_register_duplicates_witness :
    Register registerDefaults "text" Translator.ocr =
      (some (RegErr.duplicate "text"), registerDefaults) ∧
    (Register registerDefaults "text/x-org" Translator.plainText).1 = none ∧
    resolveTranslator
      (Register registerDefaults "text/x-org" Translator.plainText).2
      "text/x-org" = Except.ok Translator.plainText :=
  ⟨(c6_register_duplicates Translator registerDefaults "text" Translator.ocr).1
      Translator.plainText (by decide),
   ((c6_register_duplicates Translator registerDefaults "text/x-org"
      Translator.plainText).2.1 (by decide)).1,
   ((c6_register_duplicates Translator registerDefaults "text/x-org"
      Translator.plainText).2.1 (by decide)).2⟩

/-- C7: a file whose stat size exceeds 1,000,000 bytes is rejected at the
eligibility check by both `IndexFile` and `ShouldProcess` before any digest
is computed and before any extraction or index submission, with the store
untouched. -/
theorem c7_oversize_rejected (env : Env) (store : Store) (file : String)
    (h : env.statSize file > 1000000) :
    IndexFile env store file =
      ⟨Outcome.tooLarge, false, false, false, store⟩ ∧
    ShouldProcess env store file =
      ((false, some (GoErr.tooLarge file)), false) := by
  refine ⟨IndexFile_eq_tooLarge env store file h, ?_⟩
  unfold ShouldProcess
  rw [if_pos h]

/-- C7 witness: a 1,000,001-byte file is rejected with no hashing, no
extraction and no submission. -/
theorem c7_oversize_rejected_witness :
    IndexFile envBig [] "big.txt" =
      ⟨Outcome.tooLarge, false, false, false, []⟩ ∧
    ShouldProcess envBig [] "big.txt" =
      ((false, some (GoErr.tooLarge "big.txt")), false) :=
  c7_oversize_rejected envBig [] "big.txt" (by decide)

/-- C8 counterexample: with tesseract initialization failing, processing
`a.png` hits `log.Fatalf` inside `ocrImageFile`: the batch terminates the
process and the sibling `b.txt` is never visited, so an error while
processing one file did abort the remaining files. -/
theorem c8_fatal_counterexample :
    (IndexDirectory envTessFail [] ["a.png", "b.txt"]).2.2 = true ∧
    (IndexDirectory envTessFail [] ["a.png", "b.txt"]).1.map Prod.fst
      = ["a.png"] := by decide

/-- C8 as amended: provided tesseract initialization succeeds — the one
`log.Fatalf` escape in the core — a directory batch visits every file in
order regardless of any per-file error, and the process never
terminates. -/
theorem c8_errors_contained (env : Env) (store : Store) (files : List String)
    (hok : env.tessInitOk = true) :
    (IndexDirectory env store files).2.2 = false ∧
    (IndexDirectory env store files).1.map Prod.fst = files := by
  obtain ⟨ha, hb⟩ := IndexDirectoryGo_total env hok files store []
  refine ⟨ha, ?_⟩
  show List.map Prod.fst (IndexDirectoryGo env files store []).1 = files
  rw [hb]
  rfl

/-- C8 witness: a batch whose first file fails (no media type for `.xyz`)
still visits the second file, and the process survives. -/
theorem c8_errors_contained_witness :
    (IndexDirectory envMixed [] ["a.xyz", "b.txt"]).2.2 = false ∧
    (IndexDirectory envMixed [] ["a.xyz", "b.txt"]).1.map Prod.fst
      = ["a.xyz", "b.txt"] :=
  c8_errors_contained envMixed [] ["a.xyz", "b.txt"] (by decide)

/-- C9: `Put` keys the document by the record's `FullPath`: the stored
record is found under its path; entries at any other key are untouched, so
records for distinct paths live under distinct keys; and re-submitting a
record for the same path replaces the prior version under that key. -/
theorem c9_put_keyed_by_path (idx : List (String × FileData))
    (fd fd' : FileData) :
    lookupAL (Put idx fd) fd.FullPath = some fd ∧
    (∀ p, p ≠ fd.FullPath → lookupAL (Put idx fd) p = lookupAL idx p) ∧
    (fd'.FullPath = fd.FullPath →
      lookupAL (Put (Put idx fd') fd) fd.FullPath = some fd) ∧
    (fd'.FullPath ≠ fd.FullPath →
      lookupAL (Put (Put idx fd) fd') fd.FullPath = some fd ∧
      lookupAL (Put (Put idx fd) fd') fd'.FullPath = some fd') := by
  refine ⟨lookupAL_upsert_self idx fd.FullPath fd, ?_, ?_, ?_⟩
  · intro p hp
    exact lookupAL_upsert_ne idx fd.FullPath p fd hp
  · intro _
    exact lookupAL_upsert_self _ _ _
  · intro hp
    constructor
    · have hstep := lookupAL_upsert_ne (Put idx fd) fd'.FullPath fd.FullPath fd'
        (fun hh => hp hh.symm)
      show lookupAL (upsert (Put idx fd) fd'.FullPath fd') fd.FullPath = some fd
      rw [hstep]
      exact lookupAL_upsert_self idx fd.FullPath fd
    · exact lookupAL_upsert_self _ _ _

/-- C9 witness: a record is found under its path; an unrelated key is
untouched; re-submitting the same path replaces the old version; records at
two distinct paths coexist under their own keys. -/
theorem c9_put_keyed_by_path_witness :
    lookupAL (Put [] fdB) fdB.FullPath = some fdB ∧
    lookupAL (Put [] fdB) "/b/n.txt" = lookupAL [] "/b/n.txt" ∧
    lookupAL (Put (Put [] fdA) fdB) fdB.FullPath = some fdB ∧
    (lookupAL (Put (Put [] fdB) fdC) fdB.FullPath = some fdB ∧
     lookupAL (Put (Put [] fdB) fdC) fdC.FullPath = some fdC) :=
  ⟨(c9_put_keyed_by_path [] fdB fdA).1,
   (c9_put_keyed_by_path [] fdB fdA).2.1 "/b/n.txt" (by decide),
   (c9_put_keyed_by_path [] fdB fdA).2.2.1 (by decide),
   (c9_put_keyed_by_path [] fdB fdC).2.2.2 (by decide)⟩

/-- C10: fingerprint entries are keyed by base name alone: when two paths
share a base name and byte content and the first was successfully processed
and fingerprinted, an `IndexFile` call on the second path returns success
immediately via the unchanged-file fast path — no extraction, no index
submission — so the second file is never indexed under its own key. -/
theorem c10_basename_alias (env : Env) (store : Store) (p1 p2 : String)
    (hbase : filepathBase p1 = filepathBase p2)
    (hcontent : env.fs p1 = env.fs p2)
    (hsz2 : ¬ (env.statSize p2 > 1000000))
    (h1 : (IndexFile env store p1).outcome = Outcome.ok) :
    IndexFile env (IndexFile env store p1).store p2 =
      ⟨Outcome.alreadyIndexed, true, false, false,
        (IndexFile env store p1).store⟩ ∧
    Outcome.isSuccess
      (IndexFile env (IndexFile env store p1).store p2).outcome = true := by
  obtain ⟨hsz1, hstore⟩ := IndexFile_ok_inv env store p1 h1
  have hh : HashFile env p2 = HashFile env p1 := by
    unfold HashFile
    rw [hcontent]
  have hchk : (CheckHash (IndexFile env store p1).store (filepathBase p2)
      (HashFile env p2)).1 = true := by
    rw [hstore, ← hbase, hh]
    exact CheckHash_upsert_self store (filepathBase p1) (HashFile env p1)
  have h2 := IndexFile_on_matching env (IndexFile env store p1).store p2 hsz2 hchk
  refine ⟨h2, ?_⟩
  rw [h2]
  rfl

/-- C10 witness: after indexing `d1/n.txt`, the distinct path `d2/n.txt`
with the same base name and content is skipped as already indexed. -/
theorem c10_basename_alias_witness :
    IndexFile envGood (IndexFile envGood [] "d1/n.txt").store "d2/n.txt" =
      ⟨Outcome.alreadyIndexed, true, false, false,
        (IndexFile envGood [] "d1/n.txt").store⟩ ∧
    Outcome.isSuccess
      (IndexFile envGood (IndexFile envGood [] "d1/n.txt").store
        "d2/n.txt").outcome = true :=
  c10_basename_alias envGood [] "d1/n.txt" "d2/n.txt" (by decide) (by decide)
    (by decide) (by decide)
